import Mathlib

/-!
# AirGapSync — verification of the cryptographic core against its specification

Shallow embedding of the Rust sources under `src/src/rust_core/` :
* `crypto.rs`   — symmetric AEAD engine (`encrypt` / `decrypt`), nonce handling;
* `keychain.rs` — secure key store (`store_key` / `get_key` / `delete_key`),
  key generation and rotation;
* `keys.rs`     — asymmetric keys (`sign` / `verify` / `sign_hash` / `verify_hash`);
* `config.rs`   — configuration validation (`Config::validate`).

Machine integers are modelled as `Nat` (bytes are `Nat`s below 256, `u32`
fields as `Nat`); byte strings are `List Nat`; fallible Rust functions return
`Except`; ambient effects (the system RNG, the wall clock, the OS keychain)
are threaded explicitly as arguments and state.

External library primitives (the `ring` AEAD seal/open pair, the RSA/ECDSA
signature primitives of the `rsa`/`ring` crates, and the OS secure-store
backend) are not part of this repository; they are modelled at their
documented interfaces: the AEAD pair as an executable idealized
stream-cipher-plus-tag construction with the AEAD functional contract, the
signature primitives as explicit function parameters, and the secure store
as a finite map from (service, account) to stored blobs.
-/

namespace AirGapSync

/-! ## crypto.rs — errors, algorithms, keys -/

/-- Rust `CryptoError` from `crypto.rs`. -/
inductive CryptoError where
  | EncryptionFailed
  | DecryptionFailed
  | InvalidKeyLength
  | InvalidNonce
  | KeyDerivationFailed
  | RandomGenerationFailed
  | UnsupportedAlgorithm (name : String)
deriving DecidableEq, Repr

deriving instance DecidableEq for Except

/-- Rust `Algorithm` from `crypto.rs`: the supported symmetric AEAD algorithms. -/
inductive Algorithm where
  | Aes256Gcm
  | ChaCha20Poly1305
deriving DecidableEq, Repr

/-- Rust `Algorithm::key_size`. -/
def Algorithm.key_size : Algorithm → Nat
  | .Aes256Gcm => 32
  | .ChaCha20Poly1305 => 32

/-- Rust `Algorithm::nonce_size`. -/
def Algorithm.nonce_size : Algorithm → Nat
  | .Aes256Gcm => 12
  | .ChaCha20Poly1305 => 12

/-- Rust `Algorithm::tag_size`. -/
def Algorithm.tag_size : Algorithm → Nat
  | .Aes256Gcm => 16
  | .ChaCha20Poly1305 => 16

/-- Numeric tag distinguishing the two AEAD primitives (`AES_256_GCM` vs
`CHACHA20_POLY1305` in the `match` of `encrypt`/`decrypt`). -/
def Algorithm.primId : Algorithm → Nat
  | .Aes256Gcm => 1
  | .ChaCha20Poly1305 => 2

/-- Rust `CryptoKey` from `crypto.rs`: raw key material bound to one algorithm. -/
structure CryptoKey where
  key : List Nat
  algorithm : Algorithm
deriving DecidableEq, Repr

/-- Rust `CryptoKey::new`: validates the material length against the algorithm. -/
def CryptoKey.new (key : List Nat) (algorithm : Algorithm) :
    Except CryptoError CryptoKey :=
  if key.length ≠ algorithm.key_size then .error .InvalidKeyLength
  else .ok ⟨key, algorithm⟩

/-- The system CSPRNG (`ring::rand::SystemRandom`), modelled as an explicit
byte stream: index `i` gives the `i`-th sampled byte of one `fill` call. -/
def randomBytes (rng : Nat → Nat) (size : Nat) : List Nat :=
  (List.range size).map (fun i => rng i % 256)

/-- Rust `NonceGenerator::generate`: fills `size` random bytes. -/
def nonceGenerate (rng : Nat → Nat) (size : Nat) : List Nat :=
  randomBytes rng size

/-! ## crypto.rs — single-use nonce sequence -/

/-- Rust `ring::error::Unspecified`. -/
inductive Unspecified where
  | unspecified
deriving DecidableEq, Repr

/-- Rust `ring::aead::Nonce::try_assume_unique_for_key`: accepts exactly 12-byte
nonces (ring's `NONCE_LEN`), errors otherwise. -/
def tryAssumeUniqueForKey (n : List Nat) : Except Unspecified (List Nat) :=
  if n.length = 12 then .ok n else .error .unspecified

/-- Rust `SingleUseNonce` from `crypto.rs`: holds at most one nonce. -/
structure SingleUseNonce where
  nonce : Option (List Nat)
deriving DecidableEq, Repr

/-- Rust `SingleUseNonce::new`. -/
def SingleUseNonce.new (nonce : List Nat) : SingleUseNonce :=
  ⟨some nonce⟩

/-- Rust `SingleUseNonce::advance` (the `NonceSequence` impl):
`self.nonce.take().ok_or(Unspecified).and_then(try_assume_unique_for_key)`.
Returns the result together with the mutated state (`take` leaves `None`). -/
def SingleUseNonce.advance (s : SingleUseNonce) :
    Except Unspecified (List Nat) × SingleUseNonce :=
  match s.nonce with
  | some n => (tryAssumeUniqueForKey n, ⟨none⟩)
  | none => (.error .unspecified, ⟨none⟩)

/-! ## crypto.rs — the AEAD primitive (external, `ring::aead`)

Modelled from the spec: `ring`'s `seal_in_place_append_tag` /
`open_in_place` pair is an external primitive; it is idealized here as an
executable stream-cipher-plus-tag construction that satisfies the
documented AEAD contract — sealing appends a 16-byte tag
(`|sealed| = |plaintext| + tag_size`), opening checks the tag against
`(key, nonce, aad, ciphertext)` and inverts the cipher. -/

/-- Deterministic mixing fold used by the idealized primitive. -/
def byteFold (xs : List Nat) : Nat :=
  xs.foldl (fun a b => (a * 257 + b + 1) % 1000003) 0

/-- Keystream byte `i` of the idealized cipher for `(alg, key, nonce)`. -/
def keystreamByte (alg : Algorithm) (key nonce : List Nat) (i : Nat) : Nat :=
  (alg.primId * 97 + byteFold key * 131 + byteFold nonce * 31 + i * 7 + 13) % 256

/-- XOR the data against the keystream starting at position `i`. -/
def xorStreamFrom (alg : Algorithm) (key nonce : List Nat) (i : Nat) :
    List Nat → List Nat
  | [] => []
  | b :: bs =>
      (b ^^^ keystreamByte alg key nonce i) ::
        xorStreamFrom alg key nonce (i + 1) bs

/-- XOR the whole data block against the keystream. -/
def xorStream (alg : Algorithm) (key nonce data : List Nat) : List Nat :=
  xorStreamFrom alg key nonce 0 data

/-- The 16-byte authentication tag of the idealized primitive. -/
def tagBytes (alg : Algorithm) (key nonce aad ct : List Nat) : List Nat :=
  (List.range 16).map (fun i =>
    (alg.primId * 89 + byteFold key * 101 + byteFold nonce * 59 +
      byteFold aad * 43 + byteFold ct * 17 + i * 3 + 7) % 256)

/-- Idealized `seal_in_place_append_tag`: ciphertext followed by the tag. -/
def sealAead (alg : Algorithm) (key nonce aad pt : List Nat) : List Nat :=
  xorStream alg key nonce pt ++ tagBytes alg key nonce aad (xorStream alg key nonce pt)

/-- Idealized `open_in_place`: split off the trailing 16-byte tag, check it,
and invert the cipher; `none` on tag mismatch or short input. -/
def openAead (alg : Algorithm) (key nonce aad input : List Nat) :
    Option (List Nat) :=
  if input.length < 16 then none
  else
    let ct := input.take (input.length - 16)
    let tag := input.drop (input.length - 16)
    if tag = tagBytes alg key nonce aad ct then some (xorStream alg key nonce ct)
    else none

/-- Rust `ring::aead::UnboundKey::new`: fails iff the key material length does not
match the algorithm's key length. -/
def unboundKeyNew (alg : Algorithm) (key : List Nat) : Option Unit :=
  if key.length = alg.key_size then some () else none

/-! ## crypto.rs — encrypt / decrypt -/

/-- Rust `encrypt` from `crypto.rs`: pick the primitive from the key's algorithm,
build the unbound key, sample a fresh nonce, seal with a `SingleUseNonce`
sealing context, and return `nonce ++ sealed`. The system RNG is threaded
as the explicit `rng` byte stream. -/
def encrypt (rng : Nat → Nat) (key : CryptoKey) (plaintext additional_data : List Nat) :
    Except CryptoError (List Nat) :=
  match unboundKeyNew key.algorithm key.key with
  | none => .error .EncryptionFailed
  | some _ =>
    let nonce_bytes := nonceGenerate rng key.algorithm.nonce_size
    match (SingleUseNonce.new nonce_bytes).advance.1 with
    | .error _ => .error .EncryptionFailed
    | .ok nonce =>
        .ok (nonce_bytes ++ sealAead key.algorithm key.key nonce additional_data plaintext)

/-- Rust `decrypt` from `crypto.rs`: bounds-check the input against
`nonce_size + tag_size`, split off the leading nonce, build the unbound key,
and open with a `SingleUseNonce` opening context. -/
def decrypt (key : CryptoKey) (ciphertext additional_data : List Nat) :
    Except CryptoError (List Nat) :=
  let nonce_size := key.algorithm.nonce_size
  if ciphertext.length < nonce_size + key.algorithm.tag_size then
    .error .DecryptionFailed
  else
    let nonce_bytes := ciphertext.take nonce_size
    match unboundKeyNew key.algorithm key.key with
    | none => .error .DecryptionFailed
    | some _ =>
      match (SingleUseNonce.new nonce_bytes).advance.1 with
      | .error _ => .error .DecryptionFailed
      | .ok nonce =>
        match openAead key.algorithm key.key nonce additional_data
            (ciphertext.drop nonce_size) with
        | some pt => .ok pt
        | none => .error .DecryptionFailed

/-- Rust `secure_compare` from `crypto.rs`: length-checked XOR-accumulate compare. -/
def secure_compare (a b : List Nat) : Bool :=
  if a.length ≠ b.length then false
  else ((a.zip b).foldl (fun r p => r ||| Nat.xor p.1 p.2) 0) == 0

/-! ## keychain.rs — errors and data model -/

/-- Rust `KeychainError` from `keychain.rs`. The `SecurityFramework` payload is
modelled by the OS status code it wraps. -/
inductive KeychainError where
  | AccessDenied
  | KeyNotFound
  | KeychainAccess (msg : String)
  | EncodingError (msg : String)
  | InvalidKeyFormat
  | SecurityFramework (code : Int)
deriving DecidableEq, Repr

/-- Rust `SERVICE_NAME` from `keychain.rs`. -/
def SERVICE_NAME : String := "com.airgapsync.keys"

/-- Rust `KeyMetadata` from `keychain.rs`. `chrono::DateTime<Utc>` values are
modelled by their RFC3339 string representation (the form in which they are
serialized); `version : u32` is modelled as `Nat`. -/
structure KeyMetadata where
  algorithm : String
  created_at : String
  rotated_at : Option String
  version : Nat
  device_id : String
deriving DecidableEq, Repr

/-- Rust `EncryptionKey` from `keychain.rs`. -/
structure EncryptionKey where
  key_material : List Nat
  metadata : KeyMetadata
deriving DecidableEq, Repr

/-- Rust `KeyData` from `keychain.rs`: the JSON envelope, material base64-encoded. -/
structure KeyData where
  material : String
  metadata : KeyMetadata
deriving DecidableEq, Repr

/-! ## keychain.rs — base64 (external, `base64` crate, STANDARD engine)

Modelled from the spec: the `base64` crate's standard alphabet engine with
`=`-padding and canonicality checks on the discarded trailing bits. -/

/-- Character of the standard base64 alphabet for a 6-bit value. -/
def b64Char (n : Nat) : Char :=
  if n < 26 then Char.ofNat (65 + n)
  else if n < 52 then Char.ofNat (97 + (n - 26))
  else if n < 62 then Char.ofNat (48 + (n - 52))
  else if n = 62 then '+'
  else '/'

/-- Six-bit value of a standard base64 alphabet character. -/
def b64Val (c : Char) : Option Nat :=
  if 'A' ≤ c ∧ c ≤ 'Z' then some (c.toNat - 65)
  else if 'a' ≤ c ∧ c ≤ 'z' then some (c.toNat - 97 + 26)
  else if '0' ≤ c ∧ c ≤ '9' then some (c.toNat - 48 + 52)
  else if c = '+' then some 62
  else if c = '/' then some 63
  else none

/-- Encode a byte list in groups of three bytes to four characters. -/
def b64EncodeGroups : List Nat → List Char
  | [] => []
  | [b0] =>
      [b64Char (b0 / 4), b64Char (b0 % 4 * 16), '=', '=']
  | [b0, b1] =>
      [b64Char (b0 / 4), b64Char (b0 % 4 * 16 + b1 / 16),
       b64Char (b1 % 16 * 4), '=']
  | b0 :: b1 :: b2 :: rest =>
      b64Char (b0 / 4) :: b64Char (b0 % 4 * 16 + b1 / 16) ::
        b64Char (b1 % 16 * 4 + b2 / 64) :: b64Char (b2 % 64) ::
          b64EncodeGroups rest

/-- Standard base64 encoding of a byte string. -/
def base64Encode (bytes : List Nat) : String :=
  String.mk (b64EncodeGroups bytes)

/-- Decode base64 characters in groups of four; padding only in the last
group; rejects non-canonical discarded bits (the crate's strict mode). -/
def b64DecodeGroups : List Char → Option (List Nat)
  | [] => some []
  | [c0, c1, '=', '='] => do
      let v0 ← b64Val c0
      let v1 ← b64Val c1
      if v1 % 16 = 0 then some [v0 * 4 + v1 / 16] else none
  | [c0, c1, c2, '='] => do
      let v0 ← b64Val c0
      let v1 ← b64Val c1
      let v2 ← b64Val c2
      if v2 % 4 = 0 then some [v0 * 4 + v1 / 16, v1 % 16 * 16 + v2 / 4]
      else none
  | c0 :: c1 :: c2 :: c3 :: rest => do
      let v0 ← b64Val c0
      let v1 ← b64Val c1
      let v2 ← b64Val c2
      let v3 ← b64Val c3
      let tail ← b64DecodeGroups rest
      some ([v0 * 4 + v1 / 16, v1 % 16 * 16 + v2 / 4, v2 % 4 * 64 + v3] ++ tail)
  | _ => none

/-- Standard base64 decoding of a string; `none` on any invalid input. -/
def base64Decode (s : String) : Option (List Nat) :=
  b64DecodeGroups s.data

/-! ## keychain.rs — JSON envelope (external, `serde_json`)

Modelled from the spec: `serde_json` text parsing is external; blobs that
hold JSON are modelled at the JSON-value level, and the derived
(de)serialization of `KeyData` / `KeyMetadata` is modelled field by field
(unknown fields ignored, a missing `Option` field decoding to `None`,
`u32` range enforced). -/

/-- A JSON value (numbers restricted to the naturals, which covers every
number the envelope carries). -/
inductive Json where
  | null
  | bool (b : Bool)
  | num (n : Nat)
  | str (s : String)
  | arr (xs : List Json)
  | obj (fields : List (String × Json))

/-- First value bound to a field name in a JSON object's field list. -/
def jLookup (fields : List (String × Json)) (key : String) : Option Json :=
  (fields.find? (fun p => p.1 = key)).map (·.2)

/-- Expect a JSON string. -/
def jStr : Option Json → Option String
  | some (.str s) => some s
  | _ => none

/-- Expect a JSON number within `u32` range. -/
def jU32 : Option Json → Option Nat
  | some (.num n) => if n < 2 ^ 32 then some n else none
  | _ => none

/-- Expect an optional JSON string: `null` or a missing field is `none`. -/
def jOptStr : Option Json → Option (Option String)
  | some (.str s) => some (some s)
  | some .null => some none
  | none => some none
  | _ => none

/-- Serialize `KeyMetadata` (derived `Serialize`, declaration field order). -/
def encodeMetadata (m : KeyMetadata) : Json :=
  .obj [("algorithm", .str m.algorithm),
        ("created_at", .str m.created_at),
        ("rotated_at", match m.rotated_at with
                       | some t => .str t
                       | none => .null),
        ("version", .num m.version),
        ("device_id", .str m.device_id)]

/-- Deserialize `KeyMetadata` (derived `Deserialize`). -/
def parseMetadata : Json → Option KeyMetadata
  | .obj fs => do
      let algorithm ← jStr (jLookup fs "algorithm")
      let created_at ← jStr (jLookup fs "created_at")
      let rotated_at ← jOptStr (jLookup fs "rotated_at")
      let version ← jU32 (jLookup fs "version")
      let device_id ← jStr (jLookup fs "device_id")
      some ⟨algorithm, created_at, rotated_at, version, device_id⟩
  | _ => none

/-- Serialize `KeyData` (derived `Serialize`). -/
def encodeKeyData (kd : KeyData) : Json :=
  .obj [("material", .str kd.material), ("metadata", encodeMetadata kd.metadata)]

/-- Deserialize `KeyData` (derived `Deserialize`). -/
def parseKeyData : Json → Option KeyData
  | .obj fs => do
      let material ← jStr (jLookup fs "material")
      let mj ← jLookup fs "metadata"
      let metadata ← parseMetadata mj
      some ⟨material, metadata⟩
  | _ => none

/-! ## keychain.rs — the OS secure store (external, Security Framework)

Modelled from the spec: the macOS keychain backend
(`set_generic_password` / `find_generic_password`) is modelled as a finite
map from (service name, account) to the stored blob. A blob is either a
JSON value (what `store_key` writes) or raw non-JSON bytes (what the
tombstone write of `delete_key` produces); `serde_json::from_slice` fails
on the latter. -/

/-- A stored blob. -/
inductive Blob where
  | json (j : Json)
  | raw (bytes : List Nat)

/-- The OS keychain state: service name and account to blob. -/
def SecStore := String → String → Option Blob

/-- Rust `set_generic_password service account data`: upsert one entry. -/
def setGenericPassword (store : SecStore) (service account : String) (data : Blob) :
    SecStore :=
  fun s a => if s = service ∧ a = account then some data else store s a

/-- Rust `serde_json::from_slice::<KeyData>` over a stored blob. -/
def blobToKeyData : Blob → Option KeyData
  | .json j => parseKeyData j
  | .raw _ => none

/-- Rust `KeychainManager` from `keychain.rs` (the optional custom `SecKeychain`
handle is unused by every store operation and omitted). -/
structure KeychainManager where
  service_name : String
deriving DecidableEq, Repr

/-- Rust `KeychainManager::new`. -/
def KeychainManager.new : KeychainManager :=
  ⟨SERVICE_NAME⟩

/-- Rust `KeychainManager::store_key`: base64-encode the material, serialize the
`KeyData` envelope to JSON, and write it under `(service_name, device_id)`.
Returns the updated store. -/
def KeychainManager.store_key (kc : KeychainManager) (store : SecStore)
    (device_id : String) (key : EncryptionKey) : Except KeychainError SecStore :=
  let key_data : KeyData :=
    { material := base64Encode key.key_material, metadata := key.metadata }
  .ok (setGenericPassword store kc.service_name device_id (.json (encodeKeyData key_data)))

/-- Rust `KeychainManager::get_key`: find the blob, parse the JSON envelope,
base64-decode the material. A missing entry is `KeyNotFound` (OS status
-25300); parse and decode failures are `EncodingError`. -/
def KeychainManager.get_key (kc : KeychainManager) (store : SecStore)
    (device_id : String) : Except KeychainError EncryptionKey :=
  match store kc.service_name device_id with
  | none => .error .KeyNotFound
  | some blob =>
    match blobToKeyData blob with
    | none => .error (.EncodingError "invalid key data")
    | some key_data =>
      match base64Decode key_data.material with
      | none => .error (.EncodingError "invalid base64")
      | some key_material => .ok ⟨key_material, key_data.metadata⟩

/-- Rust `KeychainManager::key_exists`. -/
def KeychainManager.key_exists (kc : KeychainManager) (store : SecStore)
    (device_id : String) : Bool :=
  (store kc.service_name device_id).isSome

/-- Rust `KeychainManager::delete_key`: errors with `KeyNotFound` when no entry is
present; otherwise writes an empty blob under the service name
`"{service_name}.deleted"` (the tombstone workaround in the source) and
returns the updated store. -/
def KeychainManager.delete_key (kc : KeychainManager) (store : SecStore)
    (device_id : String) : Except KeychainError SecStore :=
  if kc.key_exists store device_id = false then .error .KeyNotFound
  else
    .ok (setGenericPassword store (kc.service_name ++ ".deleted") device_id (.raw []))

/-! ## keychain.rs — key generation and rotation -/

/-- The algorithm-string match of `generate_key`: the known algorithm names
and their key sizes; any other string is rejected. -/
def keychainKeySize (algorithm : String) : Option Nat :=
  if algorithm = "AES-256" then some 32
  else if algorithm = "AES-128" then some 16
  else if algorithm = "ChaCha20" then some 32
  else none

/-- Rust `generate_key` from `keychain.rs`: map the algorithm string to its key
size (unknown strings are `InvalidKeyFormat`), fill fresh random material,
and build version-1 metadata. The clock (`Utc::now()`) is the explicit
`now` argument, the RNG the explicit `rng` byte stream. -/
def generate_key (rng : Nat → Nat) (now : String) (algorithm device_id : String) :
    Except KeychainError EncryptionKey :=
  match keychainKeySize algorithm with
  | none => .error .InvalidKeyFormat
  | some key_size =>
    let key_material := randomBytes rng key_size
    let metadata : KeyMetadata :=
      { algorithm := algorithm
        created_at := now
        rotated_at := none
        version := 1
        device_id := device_id }
    .ok ⟨key_material, metadata⟩

/-- Rust `rotate_key` from `keychain.rs`: read the existing key, generate fresh
material under the same algorithm string, carry over `created_at`, bump
`version`, set `rotated_at`, store, and return the new key together with
the updated store. The bump `old.version + 1` is a `u32` addition in the
source, so it is taken modulo `2 ^ 32` here (release-mode wrapping; a
debug build would panic at `u32::MAX` instead). -/
def rotate_key (rng : Nat → Nat) (now : String) (keychain : KeychainManager)
    (store : SecStore) (device_id : String) :
    Except KeychainError (SecStore × EncryptionKey) := do
  let old_key ← keychain.get_key store device_id
  let new0 ← generate_key rng now old_key.metadata.algorithm device_id
  let new_key : EncryptionKey :=
    { key_material := new0.key_material
      metadata :=
        { new0.metadata with
            version := (old_key.metadata.version + 1) % 2 ^ 32
            rotated_at := some now
            created_at := old_key.metadata.created_at } }
  let store' ← keychain.store_key store device_id new_key
  pure (store', new_key)

/-! ## keys.rs — asymmetric keys -/

/-- Rust `KeyError` from `keys.rs`. -/
inductive KeyError where
  | GenerationFailed
  | InvalidFormat
  | UnsupportedAlgorithm (name : String)
  | ParsingFailed
  | VerificationFailed
deriving DecidableEq, Repr

/-- Rust `AsymmetricAlgorithm` from `keys.rs`. -/
inductive AsymmetricAlgorithm where
  | Rsa2048
  | Rsa4096
  | EcdsaP256
  | EcdsaP384
deriving DecidableEq, Repr

/-- Rust `AsymmetricAlgorithm::as_str`. -/
def AsymmetricAlgorithm.as_str : AsymmetricAlgorithm → String
  | .Rsa2048 => "RSA-2048"
  | .Rsa4096 => "RSA-4096"
  | .EcdsaP256 => "ECDSA-P256"
  | .EcdsaP384 => "ECDSA-P384"

/-- The hash paired with each algorithm (SHA-256 / SHA-384). -/
inductive HashTag where
  | SHA256
  | SHA384
deriving DecidableEq, Repr

/-- The ECDSA curve of the two EC algorithms. -/
inductive Curve where
  | P256
  | P384
deriving DecidableEq, Repr

/-- Rust `AsymmetricKey` from `keys.rs`: algorithm tag, PKCS#8 private bytes,
SPKI/raw public bytes. -/
structure AsymmetricKey where
  algorithm : AsymmetricAlgorithm
  private_key : List Nat
  public_key : List Nat
deriving DecidableEq, Repr

/-- Modelled from the spec: the external signature primitives of the `rsa`
and `ring` crates, passed explicitly to the signing and verification
functions. Each field is one external call site of `keys.rs`:
parsers return the parsed key (or `none` on malformed bytes), signers
return signature bytes, verifiers a boolean. The RSA PKCS#1 v1.5 signer is
deterministic; the ECDSA signer may fail (`ring` returns `Unspecified`). -/
structure SigPrims where
  rsaParsePriv : List Nat → Option (List Nat)
  rsaParsePub : List Nat → Option (List Nat)
  rsaSigTryFrom : List Nat → Option (List Nat)
  rsaSignMsg : HashTag → List Nat → List Nat → List Nat
  rsaSignPre : HashTag → List Nat → List Nat → Option (List Nat)
  rsaVerifyMsg : HashTag → List Nat → List Nat → List Nat → Bool
  rsaVerifyPre : HashTag → List Nat → List Nat → List Nat → Bool
  ecdsaFromPkcs8 : Curve → List Nat → Option (List Nat)
  ecdsaSign : Curve → List Nat → List Nat → Option (List Nat)
  ecdsaVerify : Curve → List Nat → List Nat → List Nat → Bool

/-- Rust `AsymmetricKey::sign`: RSA-2048 / RSA-4096 sign the message under
PKCS#1 v1.5 with SHA-256 / SHA-384; ECDSA parses the key pair and signs
over the curve's paired hash. -/
def AsymmetricKey.sign (P : SigPrims) (k : AsymmetricKey) (data : List Nat) :
    Except KeyError (List Nat) :=
  match k.algorithm with
  | .Rsa2048 =>
    match P.rsaParsePriv k.private_key with
    | none => .error .InvalidFormat
    | some sk => .ok (P.rsaSignMsg .SHA256 sk data)
  | .Rsa4096 =>
    match P.rsaParsePriv k.private_key with
    | none => .error .InvalidFormat
    | some sk => .ok (P.rsaSignMsg .SHA384 sk data)
  | .EcdsaP256 =>
    match P.ecdsaFromPkcs8 .P256 k.private_key with
    | none => .error .ParsingFailed
    | some kp =>
      match P.ecdsaSign .P256 kp data with
      | none => .error .GenerationFailed
      | some sig => .ok sig
  | .EcdsaP384 =>
    match P.ecdsaFromPkcs8 .P384 k.private_key with
    | none => .error .ParsingFailed
    | some kp =>
      match P.ecdsaSign .P384 kp data with
      | none => .error .GenerationFailed
      | some sig => .ok sig

/-- Rust `AsymmetricKey::verify`: RSA parses the public key and the signature
bytes, then verifies over the paired hash (note the source maps a signature
parse failure to `InvalidFormat` for RSA-2048 but to `VerificationFailed`
for RSA-4096); ECDSA verifies the ASN.1 signature over the curve. -/
def AsymmetricKey.verify (P : SigPrims) (k : AsymmetricKey)
    (data signature : List Nat) : Except KeyError Unit :=
  match k.algorithm with
  | .Rsa2048 =>
    match P.rsaParsePub k.public_key with
    | none => .error .InvalidFormat
    | some pk =>
      match P.rsaSigTryFrom signature with
      | none => .error .InvalidFormat
      | some sig =>
        if P.rsaVerifyMsg .SHA256 pk data sig then .ok ()
        else .error .VerificationFailed
  | .Rsa4096 =>
    match P.rsaParsePub k.public_key with
    | none => .error .InvalidFormat
    | some pk =>
      match P.rsaSigTryFrom signature with
      | none => .error .VerificationFailed
      | some sig =>
        if P.rsaVerifyMsg .SHA384 pk data sig then .ok ()
        else .error .VerificationFailed
  | .EcdsaP256 =>
    if P.ecdsaVerify .P256 k.public_key data signature then .ok ()
    else .error .VerificationFailed
  | .EcdsaP384 =>
    if P.ecdsaVerify .P384 k.public_key data signature then .ok ()
    else .error .VerificationFailed

/-- Rust `AsymmetricKey::sign_hash`: RSA paths sign the caller-supplied digest
through the hazmat prehash signer; the ECDSA paths fall back to
`self.sign(hash)` — the hash bytes are treated as the message and the
primitive re-hashes. -/
def AsymmetricKey.sign_hash (P : SigPrims) (k : AsymmetricKey) (hash : List Nat) :
    Except KeyError (List Nat) :=
  match k.algorithm with
  | .Rsa2048 =>
    match P.rsaParsePriv k.private_key with
    | none => .error .InvalidFormat
    | some sk =>
      match P.rsaSignPre .SHA256 sk hash with
      | none => .error .GenerationFailed
      | some sig => .ok sig
  | .Rsa4096 =>
    match P.rsaParsePriv k.private_key with
    | none => .error .InvalidFormat
    | some sk =>
      match P.rsaSignPre .SHA384 sk hash with
      | none => .error .GenerationFailed
      | some sig => .ok sig
  | .EcdsaP256 => k.sign P hash
  | .EcdsaP384 => k.sign P hash

/-- Rust `AsymmetricKey::verify_hash`: RSA paths verify through the hazmat
prehash verifier; the ECDSA paths fall back to `self.verify(hash, sig)`. -/
def AsymmetricKey.verify_hash (P : SigPrims) (k : AsymmetricKey)
    (hash signature : List Nat) : Except KeyError Unit :=
  match k.algorithm with
  | .Rsa2048 =>
    match P.rsaParsePub k.public_key with
    | none => .error .InvalidFormat
    | some pk =>
      match P.rsaSigTryFrom signature with
      | none => .error .InvalidFormat
      | some sig =>
        if P.rsaVerifyPre .SHA256 pk hash sig then .ok ()
        else .error .VerificationFailed
  | .Rsa4096 =>
    match P.rsaParsePub k.public_key with
    | none => .error .InvalidFormat
    | some pk =>
      match P.rsaSigTryFrom signature with
      | none => .error .InvalidFormat
      | some sig =>
        if P.rsaVerifyPre .SHA384 pk hash sig then .ok ()
        else .error .VerificationFailed
  | .EcdsaP256 => k.verify P hash signature
  | .EcdsaP384 => k.verify P hash signature

/-! ## config.rs — configuration model and validation -/

/-- Rust `ConfigError` from `config.rs` (the `ReadError` / `ParseError` /
`SerializationError` payloads of the external io/toml crates are modelled
by their display strings). -/
inductive ConfigError where
  | ReadError (msg : String)
  | ParseError (msg : String)
  | ValidationError (msg : String)
  | SerializationError (msg : String)
deriving DecidableEq, Repr

/-- Rust `EncryptionAlgorithm` from `config.rs`. -/
inductive EncryptionAlgorithm where
  | Aes256Gcm
  | ChaCha20Poly1305
deriving DecidableEq, Repr

/-- Rust `KeyDerivation` from `config.rs`. -/
inductive KeyDerivation where
  | Pbkdf2
  | Argon2
deriving DecidableEq, Repr

/-- Rust `AuditLevel` from `config.rs`. -/
inductive AuditLevel where
  | None
  | Basic
  | Full
deriving DecidableEq, Repr

/-- Rust `SourceConfig` from `config.rs` (`PathBuf` modelled as `String`). -/
structure SourceConfig where
  path : String
  exclude : List String
  follow_symlinks : Bool
  include_hidden : Bool
deriving DecidableEq, Repr

/-- Rust `EncryptionConfig` from `config.rs`. -/
structure EncryptionConfig where
  algorithm : EncryptionAlgorithm
  key_derivation : KeyDerivation
  iterations : Nat
deriving DecidableEq, Repr

/-- Rust `DeviceConfig` from `config.rs`. -/
structure DeviceConfig where
  id : String
  name : String
  mount_point : String
  encryption : EncryptionConfig
deriving DecidableEq, Repr

/-- Rust `PolicyConfig` from `config.rs` (`u8`/`u32` fields as `Nat`). -/
structure PolicyConfig where
  retain_snapshots : Nat
  retain_days : Nat
  gc_interval_hours : Nat
  verify_after_write : Bool
  compression_level : Nat
  chunk_size_mb : Nat
  parallel_files : Nat
  buffer_size_kb : Nat
deriving DecidableEq, Repr

/-- Rust `SecurityConfig` from `config.rs`. -/
structure SecurityConfig where
  key_rotation_days : Nat
  require_authentication : Bool
  audit_level : AuditLevel
  audit_retention_days : Nat
deriving DecidableEq, Repr

/-- Rust `Config` from `config.rs`, restricted to the sections `validate` reads
(`source`, `device`, `policy`); the sections it never inspects
(`general`, `security`, `schedule`, `notifications`, `advanced`) are
carried as `security` plus placeholders omitted from the model. -/
structure Config where
  source : SourceConfig
  device : List DeviceConfig
  policy : PolicyConfig
  security : SecurityConfig
deriving DecidableEq, Repr

/-- Message of the empty-device-list rejection. -/
def emptyDeviceMsg : String := "At least one device must be configured"

/-- Message of the missing-source-path rejection (`format!` with `{:?}`
renders the `PathBuf` quoted). -/
def sourcePathMsg (path : String) : String :=
  "Source path does not exist: " ++ "\"" ++ path ++ "\""

/-- Message of the duplicate-device-id rejection. -/
def dupDeviceMsg (id : String) : String :=
  "Duplicate device ID: " ++ id

/-- Message of the compression-level rejection. -/
def compressionMsg : String := "Compression level must be between 0-9"

/-- Message of the chunk-size rejection. -/
def chunkSizeMsg : String := "Chunk size must be greater than 0"

/-- The duplicate scan of `validate`: walk the device ids in order with the
set of ids seen so far, reporting the first id already seen. -/
def firstDupAux (seen : List String) : List String → Option String
  | [] => none
  | x :: xs => if x ∈ seen then some x else firstDupAux (x :: seen) xs

/-- Rust `Config::validate`: rejects, in source order — empty device list,
non-existent `source.path`, duplicate device ids, `compression_level > 9`,
`chunk_size_mb == 0`. The filesystem (`path.exists()`) is the explicit
`fs` predicate. -/
def Config.validate (fs : String → Bool) (c : Config) : Except ConfigError Unit :=
  if c.device.isEmpty then
    .error (.ValidationError emptyDeviceMsg)
  else if fs c.source.path = false then
    .error (.ValidationError (sourcePathMsg c.source.path))
  else
    match firstDupAux [] (c.device.map (·.id)) with
    | some id => .error (.ValidationError (dupDeviceMsg id))
    | none =>
      if c.policy.compression_level > 9 then
        .error (.ValidationError compressionMsg)
      else if c.policy.chunk_size_mb = 0 then
        .error (.ValidationError chunkSizeMsg)
      else
        .ok ()

/-! ## Supporting lemmas — AEAD primitive -/

theorem randomBytes_length (rng : Nat → Nat) (size : Nat) :
    (randomBytes rng size).length = size := by
  simp [randomBytes]

theorem xorStreamFrom_length (alg : Algorithm) (key nonce : List Nat) (i : Nat)
    (bs : List Nat) : (xorStreamFrom alg key nonce i bs).length = bs.length := by
  induction bs generalizing i with
  | nil => rfl
  | cons b bs ih => simp [xorStreamFrom, ih]

theorem xorStream_length (alg : Algorithm) (key nonce data : List Nat) :
    (xorStream alg key nonce data).length = data.length :=
  xorStreamFrom_length alg key nonce 0 data

theorem xorStreamFrom_xorStreamFrom (alg : Algorithm) (key nonce : List Nat)
    (i : Nat) (bs : List Nat) :
    xorStreamFrom alg key nonce i (xorStreamFrom alg key nonce i bs) = bs := by
  induction bs generalizing i with
  | nil => rfl
  | cons b bs ih =>
      simp only [xorStreamFrom, ih]
      rw [Nat.xor_cancel_right]

theorem xorStream_xorStream (alg : Algorithm) (key nonce data : List Nat) :
    xorStream alg key nonce (xorStream alg key nonce data) = data :=
  xorStreamFrom_xorStreamFrom alg key nonce 0 data

theorem tagBytes_length (alg : Algorithm) (key nonce aad ct : List Nat) :
    (tagBytes alg key nonce aad ct).length = 16 := by
  simp [tagBytes]

theorem sealAead_length (alg : Algorithm) (key nonce aad pt : List Nat) :
    (sealAead alg key nonce aad pt).length = pt.length + 16 := by
  simp [sealAead, tagBytes_length, xorStream_length]

/-- The idealized AEAD contract: opening a sealed message under the same
`(key, nonce, aad)` recovers the plaintext. -/
theorem openAead_sealAead (alg : Algorithm) (key nonce aad pt : List Nat) :
    openAead alg key nonce aad (sealAead alg key nonce aad pt) = some pt := by
  have hct := xorStream_length alg key nonce pt
  have hlen := sealAead_length alg key nonce aad pt
  unfold openAead
  rw [hlen, if_neg (by omega)]
  have hsub : pt.length + 16 - 16 = pt.length := by omega
  rw [hsub]
  show (if (sealAead alg key nonce aad pt).drop pt.length =
        tagBytes alg key nonce aad ((sealAead alg key nonce aad pt).take pt.length)
      then some (xorStream alg key nonce ((sealAead alg key nonce aad pt).take pt.length))
      else none) = some pt
  have htake : (sealAead alg key nonce aad pt).take pt.length
      = xorStream alg key nonce pt := by
    unfold sealAead
    rw [← hct, List.take_left]
  have hdrop : (sealAead alg key nonce aad pt).drop pt.length
      = tagBytes alg key nonce aad (xorStream alg key nonce pt) := by
    unfold sealAead
    rw [← hct, List.drop_left]
  rw [htake, hdrop, if_pos rfl, xorStream_xorStream]

theorem Algorithm.nonce_size_eq (alg : Algorithm) : alg.nonce_size = 12 := by
  cases alg <;> rfl

theorem Algorithm.tag_size_eq (alg : Algorithm) : alg.tag_size = 16 := by
  cases alg <;> rfl

/-- What `encrypt` returns on a valid key: the sampled nonce followed by the
sealed payload. -/
theorem encrypt_eq (rng : Nat → Nat) (key : CryptoKey) (plaintext aad : List Nat)
    (hkey : key.key.length = key.algorithm.key_size) :
    encrypt rng key plaintext aad =
      .ok (nonceGenerate rng key.algorithm.nonce_size ++
        sealAead key.algorithm key.key (nonceGenerate rng key.algorithm.nonce_size)
          aad plaintext) := by
  have hub : unboundKeyNew key.algorithm key.key = some () := by
    simp [unboundKeyNew, hkey]
  have hnlen : (nonceGenerate rng key.algorithm.nonce_size).length = 12 := by
    rw [nonceGenerate, randomBytes_length, key.algorithm.nonce_size_eq]
  have hadv : (SingleUseNonce.new (nonceGenerate rng key.algorithm.nonce_size)).advance.1
      = .ok (nonceGenerate rng key.algorithm.nonce_size) := by
    simp [SingleUseNonce.new, SingleUseNonce.advance, tryAssumeUniqueForKey, hnlen]
  simp only [encrypt, hub, hadv]

/-- What `decrypt` does on a well-formed envelope `nonce ++ sealed` under a
valid key: it opens the sealed payload back to the plaintext. -/
theorem decrypt_append (key : CryptoKey) (nonce aad pt : List Nat)
    (hkey : key.key.length = key.algorithm.key_size) (hn : nonce.length = 12) :
    decrypt key (nonce ++ sealAead key.algorithm key.key nonce aad pt) aad = .ok pt := by
  have h12 := key.algorithm.nonce_size_eq
  have h16 := key.algorithm.tag_size_eq
  have hub : unboundKeyNew key.algorithm key.key = some () := by
    simp [unboundKeyNew, hkey]
  have hslen := sealAead_length key.algorithm key.key nonce aad pt
  have hnotlt : ¬ ((nonce ++ sealAead key.algorithm key.key nonce aad pt).length <
      key.algorithm.nonce_size + key.algorithm.tag_size) := by
    rw [List.length_append, hn, hslen, h12, h16]
    omega
  have htake : (nonce ++ sealAead key.algorithm key.key nonce aad pt).take
      key.algorithm.nonce_size = nonce := by
    rw [h12, ← hn, List.take_left]
  have hdrop : (nonce ++ sealAead key.algorithm key.key nonce aad pt).drop
      key.algorithm.nonce_size = sealAead key.algorithm key.key nonce aad pt := by
    rw [h12, ← hn, List.drop_left]
  have hadv : (SingleUseNonce.new nonce).advance.1 = .ok nonce := by
    simp [SingleUseNonce.new, SingleUseNonce.advance, tryAssumeUniqueForKey, hn]
  simp only [decrypt]
  rw [if_neg hnotlt]
  simp only [htake, hdrop, hub, hadv, openAead_sealAead]

/-! ## Claim theorems -/

/-- C1: For every valid symmetric key (material length equal to the
algorithm's key size), every plaintext and every associated-data byte
string, `decrypt(key, encrypt(key, plaintext, aad), aad)` succeeds and
returns exactly the original plaintext. -/
theorem decrypt_encrypt_roundtrip (rng : Nat → Nat) (key : CryptoKey)
    (plaintext aad : List Nat) (hkey : key.key.length = key.algorithm.key_size) :
    ∃ ct, encrypt rng key plaintext aad = .ok ct ∧
      decrypt key ct aad = .ok plaintext := by
  have hnlen : (nonceGenerate rng key.algorithm.nonce_size).length = 12 := by
    rw [nonceGenerate, randomBytes_length, key.algorithm.nonce_size_eq]
  exact ⟨_, encrypt_eq rng key plaintext aad hkey,
    decrypt_append key (nonceGenerate rng key.algorithm.nonce_size) aad plaintext
      hkey hnlen⟩

/-- Concrete AES-256-GCM test key used by the witnesses. -/
def cryptoTestKey : CryptoKey :=
  ⟨List.replicate 32 7, .Aes256Gcm⟩

/-- Witness for C1 at a concrete key, plaintext and aad. -/
theorem decrypt_encrypt_roundtrip_witness :
    cryptoTestKey.key.length = cryptoTestKey.algorithm.key_size ∧
    ∃ ct, encrypt (fun i => i) cryptoTestKey [1, 2, 3] [9] = .ok ct ∧
      decrypt cryptoTestKey ct [9] = .ok [1, 2, 3] :=
  ⟨by decide, decrypt_encrypt_roundtrip (fun i => i) cryptoTestKey [1, 2, 3] [9] (by decide)⟩

/-- On any sufficiently long input and valid key, `decrypt` splits the input
at exactly the `nonce_size` boundary and hands both halves to the opening
primitive. -/
theorem decrypt_split (key : CryptoKey) (input aad : List Nat)
    (hkey : key.key.length = key.algorithm.key_size)
    (hlen : ¬ input.length < key.algorithm.nonce_size + key.algorithm.tag_size) :
    decrypt key input aad =
      (openAead key.algorithm key.key (input.take key.algorithm.nonce_size) aad
        (input.drop key.algorithm.nonce_size)).elim (.error .DecryptionFailed) .ok := by
  have h12 := key.algorithm.nonce_size_eq
  have h16 := key.algorithm.tag_size_eq
  have hub : unboundKeyNew key.algorithm key.key = some () := by
    simp [unboundKeyNew, hkey]
  have htlen : (input.take key.algorithm.nonce_size).length = 12 := by
    rw [List.length_take, h12]
    rw [h12, h16] at hlen
    omega
  have hadv : (SingleUseNonce.new (input.take key.algorithm.nonce_size)).advance.1
      = .ok (input.take key.algorithm.nonce_size) := by
    simp [SingleUseNonce.new, SingleUseNonce.advance, tryAssumeUniqueForKey, htlen]
  simp only [decrypt]
  rw [if_neg hlen]
  simp only [hub, hadv]
  cases openAead key.algorithm key.key (input.take key.algorithm.nonce_size) aad
      (input.drop key.algorithm.nonce_size) <;> rfl

/-- C4: For every valid key, plaintext and aad, the output of `encrypt` is a
single contiguous byte stream with no framing header, of length
`|plaintext| + nonce_size + tag_size` (12 + 16 bytes of overhead for both
algorithms): the first 12 bytes are the freshly sampled nonce and the
remainder is the sealed ciphertext with the 16-byte tag appended;
`decrypt` splits its input at exactly the `nonce_size` boundary. -/
theorem encrypt_envelope (rng : Nat → Nat) (key : CryptoKey) (pt aad : List Nat)
    (hkey : key.key.length = key.algorithm.key_size) :
    key.algorithm.nonce_size = 12 ∧ key.algorithm.tag_size = 16 ∧
    (∃ out, encrypt rng key pt aad = .ok out ∧
      out.length = pt.length + 12 + 16 ∧
      out.take 12 = nonceGenerate rng key.algorithm.nonce_size ∧
      out.drop 12 =
        xorStream key.algorithm key.key (nonceGenerate rng key.algorithm.nonce_size) pt ++
        tagBytes key.algorithm key.key (nonceGenerate rng key.algorithm.nonce_size) aad
          (xorStream key.algorithm key.key (nonceGenerate rng key.algorithm.nonce_size) pt) ∧
      (tagBytes key.algorithm key.key (nonceGenerate rng key.algorithm.nonce_size) aad
          (xorStream key.algorithm key.key (nonceGenerate rng key.algorithm.nonce_size) pt)).length
        = 16) ∧
    ∀ input aad', ¬ input.length < key.algorithm.nonce_size + key.algorithm.tag_size →
      decrypt key input aad' =
        (openAead key.algorithm key.key (input.take key.algorithm.nonce_size) aad'
          (input.drop key.algorithm.nonce_size)).elim (.error .DecryptionFailed) .ok := by
  have h12 := key.algorithm.nonce_size_eq
  have h16 := key.algorithm.tag_size_eq
  have hnlen : (nonceGenerate rng key.algorithm.nonce_size).length = 12 := by
    rw [nonceGenerate, randomBytes_length, h12]
  refine ⟨h12, h16, ⟨_, encrypt_eq rng key pt aad hkey, ?_, ?_, ?_, ?_⟩,
    fun input aad' h => decrypt_split key input aad' hkey h⟩
  · rw [List.length_append, hnlen,
      sealAead_length key.algorithm key.key (nonceGenerate rng key.algorithm.nonce_size) aad pt]
    omega
  · rw [← hnlen, List.take_left]
  · rw [← hnlen, List.drop_left, sealAead]
  · exact tagBytes_length ..

/-- Witness for C4 at a concrete key, plaintext and aad. -/
theorem encrypt_envelope_witness :
    cryptoTestKey.key.length = cryptoTestKey.algorithm.key_size ∧
    (cryptoTestKey.algorithm.nonce_size = 12 ∧ cryptoTestKey.algorithm.tag_size = 16 ∧
    (∃ out, encrypt (fun i => i + 1) cryptoTestKey [5, 6] [7] = .ok out ∧
      out.length = [5, 6].length + 12 + 16 ∧
      out.take 12 = nonceGenerate (fun i => i + 1) cryptoTestKey.algorithm.nonce_size ∧
      out.drop 12 =
        xorStream cryptoTestKey.algorithm cryptoTestKey.key
          (nonceGenerate (fun i => i + 1) cryptoTestKey.algorithm.nonce_size) [5, 6] ++
        tagBytes cryptoTestKey.algorithm cryptoTestKey.key
          (nonceGenerate (fun i => i + 1) cryptoTestKey.algorithm.nonce_size) [7]
          (xorStream cryptoTestKey.algorithm cryptoTestKey.key
            (nonceGenerate (fun i => i + 1) cryptoTestKey.algorithm.nonce_size) [5, 6]) ∧
      (tagBytes cryptoTestKey.algorithm cryptoTestKey.key
          (nonceGenerate (fun i => i + 1) cryptoTestKey.algorithm.nonce_size) [7]
          (xorStream cryptoTestKey.algorithm cryptoTestKey.key
            (nonceGenerate (fun i => i + 1) cryptoTestKey.algorithm.nonce_size) [5, 6])).length
        = 16) ∧
    ∀ input aad',
      ¬ input.length < cryptoTestKey.algorithm.nonce_size + cryptoTestKey.algorithm.tag_size →
      decrypt cryptoTestKey input aad' =
        (openAead cryptoTestKey.algorithm cryptoTestKey.key
          (input.take cryptoTestKey.algorithm.nonce_size) aad'
          (input.drop cryptoTestKey.algorithm.nonce_size)).elim
            (.error .DecryptionFailed) .ok) :=
  ⟨by decide, encrypt_envelope (fun i => i + 1) cryptoTestKey [5, 6] [7] (by decide)⟩

/-- C8: For every `SingleUseNonce` context, the first call to `advance`
yields the stored nonce (when it has the valid 12-byte length), and the
call leaves the context empty; an `advance` on the state left behind by any
`advance` call always errors — the context never yields a second nonce. -/
theorem single_use_nonce (n : List Nat) (h : n.length = 12) :
    (SingleUseNonce.new n).advance = (.ok n, ⟨none⟩) ∧
    ∀ s : SingleUseNonce, s.advance.2.advance = (.error .unspecified, ⟨none⟩) := by
  constructor
  · simp [SingleUseNonce.new, SingleUseNonce.advance, tryAssumeUniqueForKey, h]
  · intro s
    rcases s with ⟨_ | n'⟩ <;> rfl

/-- Witness for C8 at a concrete 12-byte nonce. -/
theorem single_use_nonce_witness :
    (List.replicate 12 3).length = 12 ∧
    ((SingleUseNonce.new (List.replicate 12 3)).advance = (.ok (List.replicate 12 3), ⟨none⟩) ∧
    ∀ s : SingleUseNonce, s.advance.2.advance = (.error .unspecified, ⟨none⟩)) :=
  ⟨by decide, single_use_nonce (List.replicate 12 3) (by decide)⟩

/-- C7: For every ECDSA-P256 or ECDSA-P384 key and every byte string `h`,
`sign_hash(h)` computes the same function as `sign(h)` (the hash bytes are
treated as the message and re-hashed by the primitive), and
`verify_hash(h, sig)` computes the same function as `verify(h, sig)` —
for any behaviour of the external signature primitives. -/
theorem sign_hash_eq_sign_ecdsa (P : SigPrims) (k : AsymmetricKey)
    (halg : k.algorithm = .EcdsaP256 ∨ k.algorithm = .EcdsaP384) :
    (∀ hash, k.sign_hash P hash = k.sign P hash) ∧
    (∀ hash sig, k.verify_hash P hash sig = k.verify P hash sig) := by
  constructor
  · intro hash
    rcases halg with h | h <;> simp only [AsymmetricKey.sign_hash, h]
  · intro hash sig
    rcases halg with h | h <;> simp only [AsymmetricKey.verify_hash, h]

/-- A concrete instantiation of the external signature primitives, used by
the C7 witness. -/
def sigPrimsW : SigPrims where
  rsaParsePriv := fun k => some k
  rsaParsePub := fun k => some k
  rsaSigTryFrom := fun s => some s
  rsaSignMsg := fun _ _ m => m
  rsaSignPre := fun _ _ h => some h
  rsaVerifyMsg := fun _ _ _ _ => true
  rsaVerifyPre := fun _ _ _ _ => true
  ecdsaFromPkcs8 := fun _ k => some k
  ecdsaSign := fun _ _ m => some m
  ecdsaVerify := fun _ _ _ _ => true

/-- Concrete ECDSA-P256 key used by the C7 witness. -/
def ecdsaTestKey : AsymmetricKey :=
  ⟨.EcdsaP256, [1, 2], [3, 4]⟩

/-- Witness for C7 at a concrete key and primitive instantiation. -/
theorem sign_hash_eq_sign_ecdsa_witness :
    (ecdsaTestKey.algorithm = .EcdsaP256 ∨ ecdsaTestKey.algorithm = .EcdsaP384) ∧
    ((∀ hash, ecdsaTestKey.sign_hash sigPrimsW hash = ecdsaTestKey.sign sigPrimsW hash) ∧
     (∀ hash sig, ecdsaTestKey.verify_hash sigPrimsW hash sig
        = ecdsaTestKey.verify sigPrimsW hash sig)) :=
  ⟨Or.inl (by decide), sign_hash_eq_sign_ecdsa sigPrimsW ecdsaTestKey (Or.inl (by decide))⟩

/-- The duplicate scan finds nothing iff the scanned list is duplicate-free
and disjoint from the ids already seen. -/
theorem firstDupAux_eq_none (seen xs : List String) :
    firstDupAux seen xs = none ↔ xs.Nodup ∧ ∀ x ∈ xs, x ∉ seen := by
  induction xs generalizing seen with
  | nil => simp [firstDupAux]
  | cons x xs ih =>
      simp only [firstDupAux]
      by_cases hx : x ∈ seen
      · simp [hx]
      · rw [if_neg hx, ih]
        simp only [List.nodup_cons, List.mem_cons, not_or]
        constructor
        · rintro ⟨hnd, hmem⟩
          refine ⟨⟨fun hxx => (hmem x hxx).1 rfl, hnd⟩, ?_⟩
          rintro y (rfl | hy)
          · exact hx
          · exact (hmem y hy).2
        · rintro ⟨⟨hxxs, hnd⟩, hmem⟩
          refine ⟨hnd, fun y hy => ⟨fun he => hxxs (he ▸ hy), (hmem y (Or.inr hy))⟩⟩

/-- C6: `Config::validate` rejects invalid configurations in this fixed
order — empty device list first, then non-existent `source.path`, then
duplicate device ids, then `compression_level > 9`, then
`chunk_size_mb == 0` — so when several violations are present the earliest
in this order is reported; a configuration violating none of them passes.
The final conjunct identifies the duplicate scan with duplicate-freedom of
the id list. -/
theorem config_validate_order (fs : String → Bool) (c : Config) :
    (c.device.isEmpty = true →
      c.validate fs = .error (.ValidationError emptyDeviceMsg)) ∧
    (c.device.isEmpty = false → fs c.source.path = false →
      c.validate fs = .error (.ValidationError (sourcePathMsg c.source.path))) ∧
    (c.device.isEmpty = false → fs c.source.path = true →
      ∀ d, firstDupAux [] (c.device.map (·.id)) = some d →
        c.validate fs = .error (.ValidationError (dupDeviceMsg d))) ∧
    (c.device.isEmpty = false → fs c.source.path = true →
      firstDupAux [] (c.device.map (·.id)) = none →
      c.policy.compression_level > 9 →
        c.validate fs = .error (.ValidationError compressionMsg)) ∧
    (c.device.isEmpty = false → fs c.source.path = true →
      firstDupAux [] (c.device.map (·.id)) = none →
      c.policy.compression_level ≤ 9 → c.policy.chunk_size_mb = 0 →
        c.validate fs = .error (.ValidationError chunkSizeMsg)) ∧
    (c.device.isEmpty = false → fs c.source.path = true →
      firstDupAux [] (c.device.map (·.id)) = none →
      c.policy.compression_level ≤ 9 → c.policy.chunk_size_mb ≠ 0 →
        c.validate fs = .ok ()) ∧
    (firstDupAux [] (c.device.map (·.id)) = none ↔ (c.device.map (·.id)).Nodup) := by
  refine ⟨?_, ?_, ?_, ?_, ?_, ?_, ?_⟩
  · intro h
    simp [Config.validate, h]
  · intro h hfs
    simp [Config.validate, h, hfs]
  · intro h hfs d hd
    simp [Config.validate, h, hfs, hd]
  · intro h hfs hd hc
    simp [Config.validate, h, hfs, hd, hc, Nat.not_lt.mpr hc]
  · intro h hfs hd hc hz
    simp [Config.validate, h, hfs, hd, hz, Nat.not_lt.mpr hc]
  · intro h hfs hd hc hz
    simp [Config.validate, h, hfs, hd, hz, Nat.not_lt.mpr hc]
  · rw [firstDupAux_eq_none]
    simp

/-- Filesystem predicate used by the C6 witness: only `/src` exists. -/
def fsW : String → Bool := fun p => p == "/src"

/-- Device entry used by the C6 witness. -/
def deviceW (id : String) : DeviceConfig :=
  ⟨id, "Test USB", "/Volumes/USB001", ⟨.Aes256Gcm, .Pbkdf2, 100000⟩⟩

/-- Configuration with duplicate device ids (and a later violation too:
`chunk_size_mb = 0`), used by the C6 witness. -/
def configDupW : Config :=
  { source := ⟨"/src", [], false, false⟩
    device := [deviceW "USB001", deviceW "USB001"]
    policy := ⟨7, 30, 24, true, 3, 0, 4, 1024⟩
    security := ⟨90, true, .Full, 365⟩ }

/-- Witness for C6: with duplicate ids and a zero chunk size both present,
the duplicate (earlier in the order) is the violation reported. -/
theorem config_validate_order_witness :
    configDupW.device.isEmpty = false ∧ fsW configDupW.source.path = true ∧
    firstDupAux [] (configDupW.device.map (·.id)) = some "USB001" ∧
    configDupW.validate fsW = .error (.ValidationError (dupDeviceMsg "USB001")) :=
  ⟨by decide, by decide, by decide,
    (config_validate_order fsW configDupW).2.2.1 (by decide) (by decide) "USB001" (by decide)⟩

/-! ## Supporting lemmas and fixtures — secure key store -/

theorem except_bind_ok {ε α β : Type} (a : α) (f : α → Except ε β) :
    ((Except.ok a : Except ε α) >>= f) = f a := rfl

theorem except_bind_error {ε α β : Type} (e : ε) (f : α → Except ε β) :
    ((Except.error e : Except ε α) >>= f) = (.error e : Except ε β) := rfl

/-- Rust `keychainKeySize` outside the known algorithm set. -/
theorem keychainKeySize_eq_none (a : String)
    (h : a ∉ (["AES-256", "AES-128", "ChaCha20"] : List String)) :
    keychainKeySize a = none := by
  simp only [List.mem_cons, List.not_mem_nil, or_false, not_or] at h
  simp [keychainKeySize, h.1, h.2.1, h.2.2]

/-- Rust `generate_key` on an unknown algorithm string. -/
theorem generate_key_unknown (rng : Nat → Nat) (now a device_id : String)
    (h : keychainKeySize a = none) :
    generate_key rng now a device_id = .error .InvalidKeyFormat := by
  simp [generate_key, h]

/-- Test metadata: a version-1 AES-256 key for device USB001. -/
def metaW : KeyMetadata :=
  ⟨"AES-256", "2024-01-01T00:00:00Z", none, 1, "USB001"⟩

/-- Test store holding one well-formed envelope (3-byte material `"AAAA"`)
for device USB001. -/
def storeW : SecStore := fun s a =>
  if s = SERVICE_NAME ∧ a = "USB001" then
    some (.json (encodeKeyData ⟨"AAAA", metaW⟩))
  else none

/-- Test metadata whose algorithm string is outside the keychain's set. -/
def metaRsaW : KeyMetadata :=
  ⟨"RSA-2048", "2024-01-01T00:00:00Z", none, 1, "USB001"⟩

/-- Test store holding a well-formed envelope tagged `RSA-2048`. -/
def storeRsaW : SecStore := fun s a =>
  if s = SERVICE_NAME ∧ a = "USB001" then
    some (.json (encodeKeyData ⟨"AAAA", metaRsaW⟩))
  else none

/-- Test store holding a well-formed envelope with 5-byte material tagged
`AES-256`. -/
def store5W : SecStore := fun s a =>
  if s = SERVICE_NAME ∧ a = "USB001" then
    some (.json (encodeKeyData ⟨base64Encode [1, 2, 3, 4, 5], metaW⟩))
  else none

/-- C2 (amended): for every stored key whose metadata algorithm is one of
the keychain's known names, `rotate_key` returns and stores a new key with
the same algorithm, the rotated device id, the old `created_at`, version
`(old.version + 1) % 2^32` (the `u32` bump wraps at `u32::MAX`, and equals
`old.version + 1` whenever that sum stays below `2^32`), `rotated_at` set
to the current time, and material that is exactly the fresh bytes drawn
from the random source. -/
theorem rotate_key_spec (rng : Nat → Nat) (now : String) (kc : KeychainManager)
    (store : SecStore) (device_id : String) (old : EncryptionKey)
    (hget : kc.get_key store device_id = .ok old)
    (halg : old.metadata.algorithm = "AES-256" ∨ old.metadata.algorithm = "AES-128" ∨
      old.metadata.algorithm = "ChaCha20") :
    ∃ store' newKey ks,
      rotate_key rng now kc store device_id = .ok (store', newKey) ∧
      keychainKeySize old.metadata.algorithm = some ks ∧
      newKey.metadata.algorithm = old.metadata.algorithm ∧
      newKey.metadata.device_id = device_id ∧
      newKey.metadata.created_at = old.metadata.created_at ∧
      newKey.metadata.version = (old.metadata.version + 1) % 2 ^ 32 ∧
      (old.metadata.version + 1 < 2 ^ 32 →
        newKey.metadata.version = old.metadata.version + 1) ∧
      newKey.metadata.rotated_at = some now ∧
      newKey.key_material = randomBytes rng ks ∧
      store' kc.service_name device_id =
        some (.json (encodeKeyData ⟨base64Encode newKey.key_material, newKey.metadata⟩)) ∧
      (randomBytes rng ks ≠ old.key_material → newKey.key_material ≠ old.key_material) := by
  obtain ⟨ks, hks⟩ : ∃ ks, keychainKeySize old.metadata.algorithm = some ks := by
    rcases halg with h | h | h <;> rw [h] <;> exact ⟨_, rfl⟩
  have hgen : generate_key rng now old.metadata.algorithm device_id =
      .ok ⟨randomBytes rng ks, ⟨old.metadata.algorithm, now, none, 1, device_id⟩⟩ := by
    simp [generate_key, hks]
  refine ⟨setGenericPassword store kc.service_name device_id
      (.json (encodeKeyData ⟨base64Encode (randomBytes rng ks),
        ⟨old.metadata.algorithm, old.metadata.created_at, some now,
          (old.metadata.version + 1) % 2 ^ 32, device_id⟩⟩)),
    ⟨randomBytes rng ks,
      ⟨old.metadata.algorithm, old.metadata.created_at, some now,
        (old.metadata.version + 1) % 2 ^ 32, device_id⟩⟩, ks,
    ?_, hks, rfl, rfl, rfl, rfl, fun hv => Nat.mod_eq_of_lt hv, rfl, rfl, ?_,
    fun hne => hne⟩
  · simp only [rotate_key, hget, except_bind_ok, hgen, KeychainManager.store_key]
    rfl
  · simp [setGenericPassword]

/-- Witness for C2 at the concrete AES-256 test store. -/
theorem rotate_key_spec_witness :
    KeychainManager.new.get_key storeW "USB001" = .ok ⟨[0, 0, 0], metaW⟩ ∧
    (⟨[0, 0, 0], metaW⟩ : EncryptionKey).metadata.algorithm = "AES-256" ∧
    ∃ store' newKey ks,
      rotate_key (fun i => i) "2024-06-01T00:00:00Z" KeychainManager.new storeW "USB001"
        = .ok (store', newKey) ∧
      keychainKeySize (⟨[0, 0, 0], metaW⟩ : EncryptionKey).metadata.algorithm = some ks ∧
      newKey.metadata.algorithm = (⟨[0, 0, 0], metaW⟩ : EncryptionKey).metadata.algorithm ∧
      newKey.metadata.device_id = "USB001" ∧
      newKey.metadata.created_at = (⟨[0, 0, 0], metaW⟩ : EncryptionKey).metadata.created_at ∧
      newKey.metadata.version
        = ((⟨[0, 0, 0], metaW⟩ : EncryptionKey).metadata.version + 1) % 2 ^ 32 ∧
      ((⟨[0, 0, 0], metaW⟩ : EncryptionKey).metadata.version + 1 < 2 ^ 32 →
        newKey.metadata.version = (⟨[0, 0, 0], metaW⟩ : EncryptionKey).metadata.version + 1) ∧
      newKey.metadata.rotated_at = some "2024-06-01T00:00:00Z" ∧
      newKey.key_material = randomBytes (fun i => i) ks ∧
      store' KeychainManager.new.service_name "USB001" =
        some (.json (encodeKeyData ⟨base64Encode newKey.key_material, newKey.metadata⟩)) ∧
      (randomBytes (fun i => i) ks ≠ (⟨[0, 0, 0], metaW⟩ : EncryptionKey).key_material →
        newKey.key_material ≠ (⟨[0, 0, 0], metaW⟩ : EncryptionKey).key_material) :=
  ⟨by decide, by decide,
    rotate_key_spec (fun i => i) "2024-06-01T00:00:00Z" KeychainManager.new storeW
      "USB001" ⟨[0, 0, 0], metaW⟩ (by decide) (Or.inl (by decide))⟩

/-- Counterexample for C2 as stated: the store holds a well-formed key with
metadata algorithm `RSA-2048` (a value the metadata documentation itself
lists), yet `rotate_key` does not return a rotated key — it fails with
`InvalidKeyFormat`. -/
theorem rotate_key_claim_counterexample :
    KeychainManager.new.get_key storeRsaW "USB001" = .ok ⟨[0, 0, 0], metaRsaW⟩ ∧
    rotate_key (fun i => i) "2024-06-01T00:00:00Z" KeychainManager.new storeRsaW "USB001"
      = .error .InvalidKeyFormat := by
  exact ⟨by decide, by rfl⟩

/-- C10: for every device whose stored key carries a metadata algorithm
string outside the known set, `rotate_key` fails with `InvalidKeyFormat`
(the error surfaces before any store write is reached). -/
theorem rotate_key_unknown_algorithm (rng : Nat → Nat) (now : String)
    (kc : KeychainManager) (store : SecStore) (device_id : String)
    (old : EncryptionKey)
    (hget : kc.get_key store device_id = .ok old)
    (halg : old.metadata.algorithm ∉ (["AES-256", "AES-128", "ChaCha20"] : List String)) :
    rotate_key rng now kc store device_id = .error .InvalidKeyFormat := by
  have hgen := generate_key_unknown rng now old.metadata.algorithm device_id
    (keychainKeySize_eq_none _ halg)
  simp only [rotate_key, hget, except_bind_ok, hgen, except_bind_error]

/-- Witness for C10 at the concrete RSA-2048-tagged test store. -/
theorem rotate_key_unknown_algorithm_witness :
    KeychainManager.new.get_key storeRsaW "USB001" = .ok ⟨[0, 0, 0], metaRsaW⟩ ∧
    (⟨[0, 0, 0], metaRsaW⟩ : EncryptionKey).metadata.algorithm ∉
      (["AES-256", "AES-128", "ChaCha20"] : List String) ∧
    rotate_key (fun i => i % 7) "2024-06-01T00:00:00Z" KeychainManager.new storeRsaW
      "USB001" = .error .InvalidKeyFormat :=
  ⟨by decide, by decide,
    rotate_key_unknown_algorithm (fun i => i % 7) "2024-06-01T00:00:00Z"
      KeychainManager.new storeRsaW "USB001" ⟨[0, 0, 0], metaRsaW⟩ (by decide) (by decide)⟩

/-- C5 (amended): for every algorithm string outside the keychain's known
set, `generate_key` fails with `InvalidKeyFormat` (an error that carries no
algorithm name; `KeychainError` has no `UnsupportedAlgorithm` variant). -/
theorem generate_key_unsupported (rng : Nat → Nat) (now a device_id : String)
    (h : a ∉ (["AES-256", "AES-128", "ChaCha20"] : List String)) :
    generate_key rng now a device_id = .error .InvalidKeyFormat :=
  generate_key_unknown rng now a device_id (keychainKeySize_eq_none a h)

/-- Witness for C5 at a concrete unknown algorithm string. -/
theorem generate_key_unsupported_witness :
    ("Blowfish" : String) ∉ (["AES-256", "AES-128", "ChaCha20"] : List String) ∧
    generate_key (fun i => i) "2024-01-01T00:00:00Z" "Blowfish" "USB001"
      = .error .InvalidKeyFormat :=
  ⟨by decide,
    generate_key_unsupported (fun i => i) "2024-01-01T00:00:00Z" "Blowfish" "USB001"
      (by decide)⟩

/-- Counterexample for C5 as stated: on the unknown algorithm string
`"AES-256-GCM"` the error returned is the name-free `InvalidKeyFormat` —
not an `UnsupportedAlgorithm(name)` error, which the keychain error type
does not even contain. -/
theorem generate_key_counterexample :
    generate_key (fun i => i) "2024-01-01T00:00:00Z" "AES-256-GCM" "USB001"
      = .error .InvalidKeyFormat ∧
    ∀ msg, (KeychainError.InvalidKeyFormat : KeychainError) ≠ .EncodingError msg := by
  exact ⟨by decide, fun msg h => nomatch h⟩

/-- C3 (code behaviour at the failing input): with an entry present,
`delete_key` returns `Ok` but writes its tombstone under the alternate
service name `com.airgapsync.keys.deleted`, so the original entry survives:
`key_exists` is still true and `get_key` still succeeds afterwards. The
absent-entry half of the claim does hold: `delete_key` on an empty store is
`KeyNotFound`. -/
theorem delete_key_tombstone :
    KeychainManager.new.key_exists storeW "USB001" = true ∧
    (∃ store', KeychainManager.new.delete_key storeW "USB001" = .ok store' ∧
      KeychainManager.new.key_exists store' "USB001" = true ∧
      KeychainManager.new.get_key store' "USB001" = .ok ⟨[0, 0, 0], metaW⟩) ∧
    KeychainManager.new.delete_key (fun _ _ => none) "USB001" = .error .KeyNotFound := by
  refine ⟨by decide, ⟨_, rfl, by decide, by decide⟩, by rfl⟩

/-- C9: for every stored blob that parses as the JSON envelope and whose
material field base64-decodes, `get_key` succeeds and returns exactly the
decoded bytes with the parsed metadata — with no check that the material
length matches the key size implied by the metadata algorithm: a stored
5-byte material tagged `AES-256` is returned as a 5-byte key. -/
theorem get_key_decodes (kc : KeychainManager) (store : SecStore) (device_id : String)
    (j : Json) (kd : KeyData) (bs : List Nat)
    (hblob : store kc.service_name device_id = some (.json j))
    (hparse : parseKeyData j = some kd)
    (hdec : base64Decode kd.material = some bs) :
    kc.get_key store device_id = .ok ⟨bs, kd.metadata⟩ ∧
    ∃ st : SecStore, ∃ k : EncryptionKey,
      KeychainManager.new.get_key st "USB001" = .ok k ∧
      k.metadata.algorithm = "AES-256" ∧
      k.key_material.length = 5 ∧
      k.key_material.length ≠ 32 := by
  constructor
  · simp only [KeychainManager.get_key, hblob, blobToKeyData, hparse, hdec]
  · exact ⟨store5W, ⟨[1, 2, 3, 4, 5], metaW⟩, by decide, by decide, by decide, by decide⟩

/-- Witness for C9 at the concrete 3-byte test envelope. -/
theorem get_key_decodes_witness :
    storeW KeychainManager.new.service_name "USB001"
      = some (.json (encodeKeyData ⟨"AAAA", metaW⟩)) ∧
    parseKeyData (encodeKeyData ⟨"AAAA", metaW⟩) = some ⟨"AAAA", metaW⟩ ∧
    base64Decode "AAAA" = some [0, 0, 0] ∧
    (KeychainManager.new.get_key storeW "USB001" = .ok ⟨[0, 0, 0], metaW⟩ ∧
     ∃ st : SecStore, ∃ k : EncryptionKey,
       KeychainManager.new.get_key st "USB001" = .ok k ∧
       k.metadata.algorithm = "AES-256" ∧
       k.key_material.length = 5 ∧
       k.key_material.length ≠ 32) :=
  ⟨rfl, by decide, by decide,
    get_key_decodes KeychainManager.new storeW "USB001" (encodeKeyData ⟨"AAAA", metaW⟩)
      ⟨"AAAA", metaW⟩ [0, 0, 0] rfl (by decide) (by decide)⟩

end AirGapSync
